import Mathlib

/-!
Verification development for the dental-clinic management repository.

The definitions below are a shallow embedding of the TypeScript source:

* `src/lib/types.ts` — data model, slot codec, legacy-field sync;
* `src/lib/supabase-queries.ts` — persistence-service calls, modelled as pure
  functions of the service's responses (the remote store itself is opaque);
* `src/components/dashboard.tsx`, `department-card.tsx`, `weekly-planning.tsx`
  (which also contains the appointments table), `photo-modal.tsx` — the
  optimistic-update/rollback handlers, modelled as functions from the current
  local state, the handler inputs and the outcome of the persistence call to
  the final local state plus the list of emitted toast notifications.

JavaScript strings are modelled as Lean `String`/`List Char`; `JSON.parse` and
`JSON.stringify` are embedded as an executable parser and printer over a JSON
syntax tree, faithful to the JSON grammar for the fragments the application
exercises (objects, arrays, strings with escapes, numbers, literals).
-/

/-! ## Data model (src/lib/types.ts) -/

/-- The six ordered patient stages of `PatientStatus` in `types.ts`. -/
inductive PatientStatus
  | belumDikerjakan
  | identifikasiPasien
  | diskusiDPJP
  | tindakan
  | kontrolPascaTindakan
  | selesai
deriving DecidableEq, Repr

/-- Status weights, `STATUS_WEIGHT` in `types.ts` (0–5). -/
def STATUS_WEIGHT : PatientStatus → Nat
  | .belumDikerjakan => 0
  | .identifikasiPasien => 1
  | .diskusiDPJP => 2
  | .tindakan => 3
  | .kontrolPascaTindakan => 4
  | .selesai => 5

/-- Photo record (`Photo` in `types.ts`). -/
structure Photo where
  id : String
  url : String
  storagePath : String
deriving DecidableEq, Repr

/-- Individual patient entry within a requirement (`PatientEntry`). -/
structure PatientEntry where
  id : String
  namaPasien : String
  nomorTelp : String
deriving DecidableEq, Repr

/-- A requirement record (`Patient` in `types.ts`): the entry list is the
primary source of truth, `hasPasien` / `namaPasien` / `nomorTelp` are the
derived legacy fields. -/
structure Patient where
  id : String
  requirement : String
  status : PatientStatus
  pasienList : List PatientEntry
  hasPasien : Bool
  namaPasien : String
  nomorTelp : String
  photos : List Photo
deriving DecidableEq, Repr

/-- Sub-department (`SubDepartment`). -/
structure SubDepartment where
  id : String
  name : String
  patients : List Patient
deriving DecidableEq, Repr

/-- Department (`Department`); `subDepartments` is optional in the source, so
it is an `Option` here. -/
structure Department where
  id : String
  name : String
  patients : List Patient
  hasSubDepartments : Bool
  subDepartments : Option (List SubDepartment)
deriving DecidableEq, Repr

/-- Appointment (`Appointment`). -/
structure Appointment where
  id : String
  tanggal : String
  jam : String
  kubikel : String
  rencanaPerawatan : String
  kasus : String
  departemen : String
  namaPasien : String
  nomorTelp : String
  checklist : Bool
deriving DecidableEq, Repr

/-- Structured booking payload of a weekly-slot day cell (`WeeklySlotData`). -/
structure WeeklySlotData where
  n : String
  t : String
  d : String
  pid : String
deriving DecidableEq, Repr

/-- Weekly slot row (`WeeklySlot`); one string column per weekday. -/
structure WeeklySlot where
  id : String
  jam : String
  senin : String
  selasa : String
  rabu : String
  kamis : String
  jumat : String
  sabtu : String
  minggu : String
deriving DecidableEq, Repr

/-- Function `syncLegacyFields` of `types.ts`: re-derives the legacy single
patient fields from the entry list (`first?.namaPasien ?? ""` etc.). -/
def syncLegacyFields (p : Patient) : Patient :=
  { p with
    hasPasien := p.pasienList.length > 0
    namaPasien := ((p.pasienList.head?).map PatientEntry.namaPasien).getD ""
    nomorTelp := ((p.pasienList.head?).map PatientEntry.nomorTelp).getD "" }

/-- Sum of status weights over a patient list, the `reduce` inside
`calcWeightedProgress` of `department-card.tsx`. -/
def sumWeights (patients : List Patient) : Nat :=
  patients.foldl (fun a p => a + STATUS_WEIGHT p.status) 0

/-- Function `calcWeightedProgress` of `department-card.tsx`:
`Math.round((sum / (len * 5)) * 100)` for a non-empty list, `0` otherwise.
`Math.round` rounds half away from zero on non-negative input, so the value is
`floor((200 * sum + 5 * len) / (10 * len))` over the exact rationals. -/
def calcWeightedProgress (patients : List Patient) : Nat :=
  if patients.length = 0 then 0
  else (200 * sumWeights patients + 5 * patients.length) / (10 * patients.length)

/-- Function `calcCompleted` of `department-card.tsx`. -/
def calcCompleted (patients : List Patient) : Nat :=
  (patients.filter (fun p => p.status = PatientStatus.selesai)).length

/-- The `allPatients` computation of `DepartmentCard`: all patients of the
department, flattened from the sub-departments when `hasSubDepartments` is
set and taken directly otherwise. -/
def allPatients (dept : Department) : List Patient :=
  if dept.hasSubDepartments then
    ((dept.subDepartments).getD []).flatMap SubDepartment.patients
  else dept.patients


/-! ## JavaScript string primitives

`String.prototype.trim`, `String.prototype.split(" - ")` and string
falsiness (`x || y`), modelled over `List Char`. -/

/-- JavaScript whitespace recognised by `trim` (the code points the
application can realistically contain). -/
def isJsSpace (c : Char) : Bool :=
  c = ' ' ∨ c = '\t' ∨ c = '\n' ∨ c = '\r' ∨ c = '\x0b' ∨ c = '\x0c' ∨
  c.toNat = 0xa0 ∨ c.toNat = 0x2028 ∨ c.toNat = 0x2029 ∨ c.toNat = 0xfeff

/-- The `trim()` call: drop JS whitespace from both ends. -/
def trimChars (l : List Char) : List Char :=
  ((l.dropWhile isJsSpace).reverse.dropWhile isJsSpace).reverse

/-- Worker for `split(" - ")`: leftmost non-overlapping matches of the
three-character separator. -/
def splitDashAux : List Char → List Char → List (List Char)
  | acc, ' ' :: '-' :: ' ' :: rest => acc.reverse :: splitDashAux [] rest
  | acc, c :: rest => splitDashAux (c :: acc) rest
  | acc, [] => [acc.reverse]

/-- The `val.split(" - ")` call of the legacy slot fallback. -/
def splitDash (l : List Char) : List (List Char) :=
  splitDashAux [] l

/-- JavaScript `a || b` on strings: the empty string is falsy. -/
def jsOrElse (a b : List Char) : List Char :=
  if a = [] then b else a

/-! ## JSON (`JSON.parse` / `JSON.stringify`)

An executable embedding of the JSON data interchange grammar as used by the
slot codec. Number values are kept as lexemes (the application never reads a
numeric payload). Lone UTF-16 surrogates, which `JSON.parse` would accept
inside string escapes, are unrepresentable in Lean `Char` and are rejected;
`JSON.stringify` of a well-formed string never produces them. -/

/-- JSON syntax tree. -/
inductive Json where
  | null
  | bool (b : Bool)
  | num (lexeme : String)
  | str (s : String)
  | arr (elems : List Json)
  | obj (fields : List (String × Json))
deriving Repr

/-- JSON insignificant whitespace (space, tab, line feed, carriage return). -/
def isJsonWs (c : Char) : Bool :=
  c = ' ' ∨ c = '\t' ∨ c = '\n' ∨ c = '\r'

/-- Skip insignificant whitespace. -/
def skipWs (l : List Char) : List Char :=
  l.dropWhile isJsonWs

/-- Lower-case hex digit for a value below 16, as `JSON.stringify` prints in
`\u00XX` escapes. -/
def hexDigitChar (n : Nat) : Char :=
  if n < 10 then Char.ofNat (48 + n) else Char.ofNat (87 + n)

/-- Value of a hex digit character, upper or lower case. -/
def hexVal (c : Char) : Option Nat :=
  if 48 ≤ c.toNat ∧ c.toNat ≤ 57 then some (c.toNat - 48)
  else if 97 ≤ c.toNat ∧ c.toNat ≤ 102 then some (c.toNat - 87)
  else if 65 ≤ c.toNat ∧ c.toNat ≤ 70 then some (c.toNat - 55)
  else none

/-- Quoting of one character inside a JSON string literal, exactly as
`JSON.stringify` emits it: the two mandatory escapes, the five short control
escapes, `\u00XX` for the remaining control characters, everything else
verbatim. -/
def encodeChar (c : Char) : List Char :=
  if c = '"' then ['\\', '"']
  else if c = '\\' then ['\\', '\\']
  else if c = '\x08' then ['\\', 'b']
  else if c = '\t' then ['\\', 't']
  else if c = '\n' then ['\\', 'n']
  else if c = '\x0c' then ['\\', 'f']
  else if c = '\r' then ['\\', 'r']
  else if c.toNat < 32 then
    ['\\', 'u', '0', '0', hexDigitChar (c.toNat / 16), hexDigitChar (c.toNat % 16)]
  else [c]

/-- Body of a JSON string literal for the given characters. -/
def encodeStrBody (s : List Char) : List Char :=
  s.flatMap encodeChar

/-- A complete JSON string literal, quotes included. -/
def quoteStr (s : List Char) : List Char :=
  '"' :: encodeStrBody s ++ ['"']

/-- Decoding of a two-character escape (after the backslash). -/
def escCharVal (e : Char) : Option Char :=
  if e = '"' then some '"'
  else if e = '\\' then some '\\'
  else if e = '/' then some '/'
  else if e = 'b' then some '\x08'
  else if e = 'f' then some '\x0c'
  else if e = 'n' then some '\n'
  else if e = 'r' then some '\r'
  else if e = 't' then some '\t'
  else none

/-- Parse the body of a JSON string literal (the opening quote already
consumed), returning the decoded characters and the unconsumed tail. Raw
control characters are rejected, as in the JSON grammar. -/
def parseStringBody : List Char → Option (List Char × List Char)
  | [] => none
  | c :: rest =>
    if c = '"' then some ([], rest)
    else if c = '\\' then
      match rest with
      | [] => none
      | e :: rest2 =>
        if e = 'u' then
          match rest2 with
          | a :: b :: c2 :: d :: rest3 =>
            match hexVal a, hexVal b, hexVal c2, hexVal d with
            | some ha, some hb, some hc, some hd =>
              let code := ((ha * 16 + hb) * 16 + hc) * 16 + hd
              if code < 55296 ∨ (57343 < code ∧ code < 1114112) then
                match parseStringBody rest3 with
                | some (s, r) => some (Char.ofNat code :: s, r)
                | none => none
              else none
            | _, _, _, _ => none
          | _ => none
        else
          match escCharVal e with
          | some ec =>
            match parseStringBody rest2 with
            | some (s, r) => some (ec :: s, r)
            | none => none
          | none => none
    else if c.toNat < 32 then none
    else
      match parseStringBody rest with
      | some (s, r) => some (c :: s, r)
      | none => none

/-- Exponent part of a JSON number lexeme (possibly absent). -/
def parseExpPart (acc : List Char) (l : List Char) : Option (List Char × List Char) :=
  match l with
  | c :: r =>
    if c = 'e' ∨ c = 'E' then
      let sgnSplit : List Char × List Char :=
        match r with
        | s :: r2 => if s = '+' ∨ s = '-' then ([s], r2) else ([], r)
        | [] => ([], r)
      match sgnSplit.2 with
      | d :: _ =>
        if d.isDigit then
          some (acc ++ c :: sgnSplit.1 ++ sgnSplit.2.takeWhile Char.isDigit,
                sgnSplit.2.dropWhile Char.isDigit)
        else none
      | [] => none
    else some (acc, l)
  | [] => some (acc, [])

/-- Fraction part of a JSON number lexeme (possibly absent), then exponent. -/
def parseFracPart (acc : List Char) (l : List Char) : Option (List Char × List Char) :=
  match l with
  | '.' :: r =>
    match r with
    | d :: _ =>
      if d.isDigit then
        parseExpPart (acc ++ '.' :: r.takeWhile Char.isDigit) (r.dropWhile Char.isDigit)
      else none
    | [] => none
  | _ => parseExpPart acc l

/-- A JSON number lexeme: optional minus, integer part without leading
zeros, optional fraction, optional exponent. -/
def parseNumber (l : List Char) : Option (List Char × List Char) :=
  let negSplit : List Char × List Char :=
    match l with
    | '-' :: r => (['-'], r)
    | _ => ([], l)
  match negSplit.2 with
  | c :: r =>
    if c = '0' then parseFracPart (negSplit.1 ++ ['0']) r
    else if c.isDigit then
      parseFracPart (negSplit.1 ++ c :: r.takeWhile Char.isDigit) (r.dropWhile Char.isDigit)
    else none
  | [] => none

mutual

/-- Parse one JSON value off the front of the input (leading whitespace
allowed), fuelled by `fuel`; one unit of fuel is spent per nesting level and
per object/array element, each of which consumes at least one character, so
`length + 1` fuel always suffices. -/
def parseValue : Nat → List Char → Option (Json × List Char)
  | 0, _ => none
  | fuel + 1, l =>
    match skipWs l with
    | [] => none
    | c :: rest =>
      if c = '"' then
        match parseStringBody rest with
        | some (s, r) => some (Json.str (String.mk s), r)
        | none => none
      else if c = '\x7b' then
        match skipWs rest with
        | '\x7d' :: r2 => some (Json.obj [], r2)
        | other => parseMembers fuel other
      else if c = '[' then
        match skipWs rest with
        | ']' :: r2 => some (Json.arr [], r2)
        | other => parseElements fuel other
      else if c = 't' then
        match rest with
        | 'r' :: 'u' :: 'e' :: r => some (Json.bool true, r)
        | _ => none
      else if c = 'f' then
        match rest with
        | 'a' :: 'l' :: 's' :: 'e' :: r => some (Json.bool false, r)
        | _ => none
      else if c = 'n' then
        match rest with
        | 'u' :: 'l' :: 'l' :: r => some (Json.null, r)
        | _ => none
      else
        match parseNumber (c :: rest) with
        | some (lx, r) => some (Json.num (String.mk lx), r)
        | none => none

/-- Parse the members of an object after its opening brace (input already
stripped of leading whitespace, known not to start with a closing brace). -/
def parseMembers : Nat → List Char → Option (Json × List Char)
  | 0, _ => none
  | fuel + 1, l =>
    match l with
    | '"' :: rest =>
      match parseStringBody rest with
      | some (k, r1) =>
        match skipWs r1 with
        | ':' :: r2 =>
          match parseValue fuel r2 with
          | some (v, r3) =>
            match skipWs r3 with
            | ',' :: r4 =>
              match parseMembers fuel (skipWs r4) with
              | some (Json.obj fs, r5) => some (Json.obj ((String.mk k, v) :: fs), r5)
              | _ => none
            | '\x7d' :: r4 => some (Json.obj [(String.mk k, v)], r4)
            | _ => none
          | none => none
        | _ => none
      | none => none
    | _ => none

/-- Parse the elements of an array after its opening bracket (input known
not to start with a closing bracket). -/
def parseElements : Nat → List Char → Option (Json × List Char)
  | 0, _ => none
  | fuel + 1, l =>
    match parseValue fuel l with
    | some (v, r) =>
      match skipWs r with
      | ',' :: r2 =>
        match parseElements fuel r2 with
        | some (Json.arr vs, r3) => some (Json.arr (v :: vs), r3)
        | _ => none
      | ']' :: r2 => some (Json.arr [v], r2)
      | _ => none
    | none => none

end

/-- The `JSON.parse` call on a character list: one value, nothing but
whitespace after it. -/
def jsonParseChars (l : List Char) : Option Json :=
  match parseValue (l.length + 1) l with
  | some (j, rest) => if skipWs rest = [] then some j else none
  | none => none

/-! ## Weekly-slot value codec (src/lib/types.ts) -/

/-- Result type of `parseSlotValue`: a structured booking, the break
sentinel, or the empty value. -/
inductive SlotValue where
  | data (d : WeeklySlotData)
  | istirahat
  | empty
deriving DecidableEq, Repr

/-- Read a string field off a parsed JSON object, as the TS cast
`parsed as WeeklySlotData` exposes it: an absent or non-string field is
`undefined` there and reaches the UI as an empty value, modelled as `""`. -/
def jsonGetStr (fields : List (String × Json)) (key : String) : String :=
  match fields.find? (fun f => f.1 = key) with
  | some (_, Json.str s) => s
  | _ => ""

/-- Function `serializeSlotData` of `types.ts`: `JSON.stringify` of the
booking record, whose keys serialize in declaration order `n, t, d, pid`. -/
def serializeChars (data : WeeklySlotData) : List Char :=
  '\x7b' :: (quoteStr ['n'] ++ ':' :: quoteStr data.n.data ++
    ',' :: quoteStr ['t'] ++ ':' :: quoteStr data.t.data ++
    ',' :: quoteStr ['d'] ++ ':' :: quoteStr data.d.data ++
    ',' :: quoteStr ['p', 'i', 'd'] ++ ':' :: quoteStr data.pid.data ++ ['\x7d'])

/-- String-valued form of `serializeSlotData`. -/
def serializeSlotData (data : WeeklySlotData) : String :=
  String.mk (serializeChars data)

/-- Function `parseSlotValue` of `types.ts` over the cell's characters:
empty/blank first, then the exact sentinel, then `JSON.parse` inside the
`try` (a success is returned only when it is an object carrying key `"n"`,
any other parse falls through to `return ""`), and on a parse exception the
legacy `" - "` split fallback of the `catch` block. -/
def parseSlotValueCore (val : List Char) : SlotValue :=
  if val = [] ∨ trimChars val = [] then SlotValue.empty
  else if val = "ISTIRAHAT".data then SlotValue.istirahat
  else
    match jsonParseChars val with
    | some (Json.obj fields) =>
      if fields.any (fun f => f.1 = "n") then
        SlotValue.data
          ⟨jsonGetStr fields "n", jsonGetStr fields "t",
           jsonGetStr fields "d", jsonGetStr fields "pid"⟩
      else SlotValue.empty
    | some _ => SlotValue.empty
    | none =>
      let parts := splitDash val
      SlotValue.data
        ⟨String.mk (jsOrElse (parts.getD 0 []) val), "",
         String.mk (parts.getD 1 []), ""⟩

/-- Function `parseSlotValue` of `types.ts`. -/
def parseSlotValue (val : String) : SlotValue :=
  parseSlotValueCore val.data

/-! ## Codec round-trip lemmas -/

theorem hexVal_hexDigitChar (n : Nat) (h : n < 16) : hexVal (hexDigitChar n) = some n := by
  interval_cases n <;> decide

theorem parseStringBody_quote : (s rest : List Char) →
    parseStringBody (encodeStrBody s ++ '"' :: rest) = some (s, rest)
  | [], rest => by
    rw [encodeStrBody, List.flatMap_nil, List.nil_append, parseStringBody.eq_def]
    simp
  | c :: s, rest => by
    have ih := parseStringBody_quote s rest
    rw [encodeStrBody, List.flatMap_cons, List.append_assoc]
    rw [show s.flatMap encodeChar = encodeStrBody s from rfl]
    by_cases h1 : c = '"'
    · subst h1
      rw [show encodeChar '"' = ['\\', '"'] from rfl]
      rw [List.cons_append, List.cons_append, parseStringBody.eq_def]
      simp [escCharVal, ih]
    · by_cases h2 : c = '\\'
      · subst h2
        rw [show encodeChar '\\' = ['\\', '\\'] from rfl]
        rw [List.cons_append, List.cons_append, parseStringBody.eq_def]
        simp [escCharVal, ih]
      · by_cases h3 : c = '\x08'
        · subst h3
          rw [show encodeChar '\x08' = ['\\', 'b'] from rfl]
          rw [List.cons_append, List.cons_append, parseStringBody.eq_def]
          simp [escCharVal, ih]
        · by_cases h4 : c = '\t'
          · subst h4
            rw [show encodeChar '\t' = ['\\', 't'] from rfl]
            rw [List.cons_append, List.cons_append, parseStringBody.eq_def]
            simp [escCharVal, ih]
          · by_cases h5 : c = '\n'
            · subst h5
              rw [show encodeChar '\n' = ['\\', 'n'] from rfl]
              rw [List.cons_append, List.cons_append, parseStringBody.eq_def]
              simp [escCharVal, ih]
            · by_cases h6 : c = '\x0c'
              · subst h6
                rw [show encodeChar '\x0c' = ['\\', 'f'] from rfl]
                rw [List.cons_append, List.cons_append, parseStringBody.eq_def]
                simp [escCharVal, ih]
              · by_cases h7 : c = '\r'
                · subst h7
                  rw [show encodeChar '\r' = ['\\', 'r'] from rfl]
                  rw [List.cons_append, List.cons_append, parseStringBody.eq_def]
                  simp [escCharVal, ih]
                · by_cases h8 : c.toNat < 32
                  · rw [show encodeChar c = ['\\', 'u', '0', '0',
                        hexDigitChar (c.toNat / 16), hexDigitChar (c.toNat % 16)] by
                      rw [encodeChar.eq_def]
                      simp [h1, h2, h3, h4, h5, h6, h7, h8]]
                    rw [List.cons_append, List.cons_append, List.cons_append,
                      List.cons_append, List.cons_append, List.cons_append,
                      parseStringBody.eq_def]
                    have hd1 : hexVal (hexDigitChar (c.toNat / 16)) = some (c.toNat / 16) :=
                      hexVal_hexDigitChar _ (by omega)
                    have hd2 : hexVal (hexDigitChar (c.toNat % 16)) = some (c.toNat % 16) :=
                      hexVal_hexDigitChar _ (by omega)
                    simp only [hd1, hd2, (by decide : hexVal '0' = some 0)]
                    have hcode : ((0 * 16 + 0) * 16 + c.toNat / 16) * 16 + c.toNat % 16
                        = c.toNat := by omega
                    rw [hcode, if_pos (Or.inl (by omega))]
                    simp [Char.ofNat_toNat, ih]
                  · rw [show encodeChar c = [c] by
                      rw [encodeChar.eq_def]
                      simp [h1, h2, h3, h4, h5, h6, h7, h8]]
                    rw [List.cons_append, parseStringBody.eq_def]
                    simp [h1, h2, h8, ih]


theorem parseValue_slotObj (m : Nat) (a b c d : List Char) :
    parseValue (m + 6)
      ('\x7b' :: (quoteStr ['n'] ++ ':' :: quoteStr a ++
        ',' :: quoteStr ['t'] ++ ':' :: quoteStr b ++
        ',' :: quoteStr ['d'] ++ ':' :: quoteStr c ++
        ',' :: quoteStr ['p', 'i', 'd'] ++ ':' :: quoteStr d ++ ['\x7d'])) =
    some (Json.obj [("n", Json.str (String.mk a)), ("t", Json.str (String.mk b)),
      ("d", Json.str (String.mk c)), ("pid", Json.str (String.mk d))], []) := by
  rw [parseValue.eq_def]
  simp [skipWs, isJsonWs, List.dropWhile_cons, quoteStr, parseStringBody_quote, List.append_assoc]
  rw [parseMembers.eq_def]
  simp [skipWs, isJsonWs, List.dropWhile_cons, quoteStr, parseStringBody_quote, List.append_assoc]
  rw [parseValue.eq_def]
  simp [skipWs, isJsonWs, List.dropWhile_cons, quoteStr, parseStringBody_quote, List.append_assoc]
  rw [parseMembers.eq_def]
  simp [skipWs, isJsonWs, List.dropWhile_cons, quoteStr, parseStringBody_quote, List.append_assoc]
  rw [parseValue.eq_def]
  simp [skipWs, isJsonWs, List.dropWhile_cons, quoteStr, parseStringBody_quote, List.append_assoc]
  rw [parseMembers.eq_def]
  simp [skipWs, isJsonWs, List.dropWhile_cons, quoteStr, parseStringBody_quote, List.append_assoc]
  rw [parseValue.eq_def]
  simp [skipWs, isJsonWs, List.dropWhile_cons, quoteStr, parseStringBody_quote, List.append_assoc]
  rw [parseMembers.eq_def]
  simp [skipWs, isJsonWs, List.dropWhile_cons, quoteStr, parseStringBody_quote, List.append_assoc]
  rw [parseValue.eq_def]
  simp [skipWs, isJsonWs, List.dropWhile_cons, quoteStr, parseStringBody_quote, List.append_assoc]

theorem trimChars_cons_ne_nil (c : Char) (t : List Char) (h : isJsSpace c = false) :
    trimChars (c :: t) ≠ [] := by
  intro hnil
  rw [trimChars, List.dropWhile_cons, h] at hnil
  simp only [List.reverse_eq_nil_iff, List.dropWhile_eq_nil_iff] at hnil
  have := hnil c (by simp)
  rw [h] at this
  exact Bool.false_ne_true this

theorem serializeChars_length (x : WeeklySlotData) : 5 ≤ (serializeChars x).length := by
  simp [serializeChars, quoteStr, List.length_append]
  omega

theorem jsonParseChars_serialize (x : WeeklySlotData) :
    jsonParseChars (serializeChars x) =
      some (Json.obj [("n", Json.str x.n), ("t", Json.str x.t),
        ("d", Json.str x.d), ("pid", Json.str x.pid)]) := by
  have hlen := serializeChars_length x
  have h6 : (serializeChars x).length + 1 = ((serializeChars x).length - 5) + 6 := by omega
  rw [jsonParseChars, h6]
  rw [show serializeChars x =
      ('\x7b' :: (quoteStr ['n'] ++ ':' :: quoteStr x.n.data ++
        ',' :: quoteStr ['t'] ++ ':' :: quoteStr x.t.data ++
        ',' :: quoteStr ['d'] ++ ':' :: quoteStr x.d.data ++
        ',' :: quoteStr ['p', 'i', 'd'] ++ ':' :: quoteStr x.pid.data ++ ['\x7d'])) from rfl]
  rw [parseValue_slotObj]
  simp [skipWs]

theorem parseSlotValue_roundtrip (x : WeeklySlotData) :
    parseSlotValue (serializeSlotData x) = SlotValue.data x := by
  rw [parseSlotValue, serializeSlotData]
  rw [show (String.mk (serializeChars x)).data = serializeChars x from rfl]
  rw [parseSlotValueCore]
  rw [if_neg, if_neg]
  · rw [jsonParseChars_serialize]
    simp [jsonGetStr]
  · rw [show serializeChars x =
        '\x7b' :: (quoteStr ['n'] ++ ':' :: quoteStr x.n.data ++
          ',' :: quoteStr ['t'] ++ ':' :: quoteStr x.t.data ++
          ',' :: quoteStr ['d'] ++ ':' :: quoteStr x.d.data ++
          ',' :: quoteStr ['p', 'i', 'd'] ++ ':' :: quoteStr x.pid.data ++ ['\x7d']) from rfl]
    intro h
    have hh := congrArg List.head? h
    simp at hh
  · push_neg
    constructor
    · rw [show serializeChars x =
          '\x7b' :: (quoteStr ['n'] ++ ':' :: quoteStr x.n.data ++
            ',' :: quoteStr ['t'] ++ ':' :: quoteStr x.t.data ++
            ',' :: quoteStr ['d'] ++ ':' :: quoteStr x.d.data ++
            ',' :: quoteStr ['p', 'i', 'd'] ++ ':' :: quoteStr x.pid.data ++ ['\x7d']) from rfl]
      simp
    · rw [show serializeChars x =
          '\x7b' :: (quoteStr ['n'] ++ ':' :: quoteStr x.n.data ++
            ',' :: quoteStr ['t'] ++ ':' :: quoteStr x.t.data ++
            ',' :: quoteStr ['d'] ++ ':' :: quoteStr x.d.data ++
            ',' :: quoteStr ['p', 'i', 'd'] ++ ':' :: quoteStr x.pid.data ++ ['\x7d']) from rfl]
      exact trimChars_cons_ne_nil _ _ (by decide)

/-! ## Toast notifications and optimistic-update handlers

Each mutation handler of the UI layer is embedded as a function from the
current local state, the handler's inputs, and the outcome of its
persistence call (`persistOk`, true when the awaited promise resolves) to
the final local state together with the list of toast notifications the
handler emits, in order. `onUpdate`/`setState` calls are modelled by the
returned state; the last state set before the handler returns is the state
the claim statements inspect. -/

/-- A toast notification (the `sonner` calls in the source). -/
inductive Toast where
  | success (msg : String)
  | error (msg : String)
deriving DecidableEq, Repr

/-- JavaScript truthiness of a nullable string (`null`, `undefined` and
`""` are falsy). -/
def jsTruthy (o : Option String) : Bool :=
  decide (o.getD "" ≠ "")

/-! ### Dashboard handlers (src/components/dashboard.tsx) -/

/-- Handler `handleUpdateDepartment`: optimistic in-place replacement by id,
rollback to the captured snapshot plus an error toast when `upsertDepartment`
rejects; no toast on success. -/
def handleUpdateDepartment (departments : List Department) (updated : Department)
    (persistOk : Bool) : List Department × List Toast :=
  let snapshot := departments
  let next := departments.map (fun d => if d.id = updated.id then updated else d)
  if persistOk then (next, [])
  else (snapshot, [Toast.error "Gagal menyimpan departemen. Perubahan dibatalkan."])

/-- Handler `handleDeleteDepartment` of `dashboard.tsx`. -/
def handleDeleteDepartment (departments : List Department) (id : String)
    (persistOk : Bool) : List Department × List Toast :=
  let snapshot := departments
  let next := departments.filter (fun d => d.id ≠ id)
  if persistOk then (next, [Toast.success "Departemen berhasil dihapus"])
  else (snapshot, [Toast.error "Gagal menghapus departemen. Perubahan dibatalkan."])

/-- Handler `handleAddDepartment` of `dashboard.tsx`; `newId` stands for the
freshly generated `dept-${Date.now()}`. -/
def handleAddDepartment (departments : List Department) (name : String)
    (hasSub : Bool) (newId : String) (persistOk : Bool) :
    List Department × List Toast :=
  let newDept : Department :=
    { id := newId, name := name, patients := [], hasSubDepartments := hasSub,
      subDepartments := if hasSub then some [] else none }
  let snapshot := departments
  let next := departments ++ [newDept]
  if persistOk then
    (next, [Toast.success ("Departemen \"" ++ name ++ "\" berhasil ditambahkan")])
  else (snapshot, [Toast.error "Gagal menambah departemen. Perubahan dibatalkan."])

/-! ### Department-card handlers (src/components/department-card.tsx) -/

/-- The `add` mode of `handleSavePatientForm` builds a fresh patient through
`syncLegacyFields` with an empty entry list. -/
def mkNewPatient (newId : String) (dataReq : String) (dataStatus : PatientStatus) : Patient :=
  syncLegacyFields
    { id := newId, requirement := dataReq, status := dataStatus, pasienList := [],
      hasPasien := false, namaPasien := "", nomorTelp := "", photos := [] }

/-- The two modes of the patient form modal. -/
inductive FormMode where
  | add
  | edit
deriving DecidableEq, Repr

/-- Handler `handleSavePatientForm`: the four branches (sub-department vs
direct, add vs edit), optimistic `onUpdate`, success toast on resolve,
rollback to the captured `department` plus error toast on reject. The
branches that bail out (`else return`) leave the state untouched and emit
nothing. -/
def handleSavePatientForm (department : Department) (targetSubDeptId : Option String)
    (formMode : FormMode) (editingPatient : Option Patient) (newId : String)
    (dataReq : String) (dataStatus : PatientStatus) (persistOk : Bool) :
    Department × List Toast :=
  let hasSub := department.hasSubDepartments
  let branch : Option Department :=
    if jsTruthy targetSubDeptId && hasSub then
      match formMode, editingPatient with
      | FormMode.add, _ =>
        let newP := mkNewPatient newId dataReq dataStatus
        let newSubs := ((department.subDepartments).getD []).map (fun s =>
          if s.id = targetSubDeptId.getD "" then
            { s with patients := s.patients ++ [newP] } else s)
        some { department with subDepartments := some newSubs }
      | FormMode.edit, some editing =>
        let upd := syncLegacyFields { editing with requirement := dataReq, status := dataStatus }
        let newSubs := ((department.subDepartments).getD []).map (fun s =>
          if s.id = targetSubDeptId.getD "" then
            { s with patients := s.patients.map (fun p => if p.id = editing.id then upd else p) }
          else s)
        some { department with subDepartments := some newSubs }
      | FormMode.edit, none => none
    else
      match formMode, editingPatient with
      | FormMode.add, _ =>
        let newP := mkNewPatient newId dataReq dataStatus
        some { department with patients := department.patients ++ [newP] }
      | FormMode.edit, some editing =>
        let upd := syncLegacyFields { editing with requirement := dataReq, status := dataStatus }
        let newPs := department.patients.map (fun p => if p.id = editing.id then upd else p)
        some { department with patients := newPs }
      | FormMode.edit, none => none
  match branch with
  | none => (department, [])
  | some updated =>
    if persistOk then
      (updated,
        [Toast.success (if formMode = FormMode.add then "Requirement ditambahkan"
          else "Requirement diperbarui")])
    else (department, [Toast.error "Gagal menyimpan. Perubahan dibatalkan."])

/-- The patient value `handleSavePasienList` builds from the modal's entry
list: the entry list replaced, legacy fields re-derived. -/
def updatedPasienPatient (pasienListPatient : Patient) (updatedList : List PatientEntry) : Patient :=
  syncLegacyFields { pasienListPatient with pasienList := updatedList }

/-- Handler `handleSavePasienList` of `department-card.tsx`. -/
def handleSavePasienList (department : Department) (pasienListPatient : Option Patient)
    (pasienListSubDeptId : Option String) (updatedList : List PatientEntry)
    (persistOk : Bool) : Department × List Toast :=
  match pasienListPatient with
  | none => (department, [])
  | some pat =>
    let updatedPatient := updatedPasienPatient pat updatedList
    let updated : Department :=
      if jsTruthy pasienListSubDeptId && department.hasSubDepartments then
        let newSubs := ((department.subDepartments).getD []).map (fun s =>
          if s.id = pasienListSubDeptId.getD "" then
            { s with patients := s.patients.map (fun p =>
              if p.id = updatedPatient.id then updatedPatient else p) }
          else s)
        { department with subDepartments := some newSubs }
      else
        let newPs := department.patients.map (fun p =>
          if p.id = updatedPatient.id then updatedPatient else p)
        { department with patients := newPs }
    if persistOk then (updated, [Toast.success "Daftar pasien diperbarui"])
    else (department, [Toast.error "Gagal menyimpan pasien. Perubahan dibatalkan."])

/-- Handler `handleStatusChange` of `department-card.tsx`: note that when the
patient id is not found in `allPatients` no persistence call is made at all,
so the optimistically-updated state stands and nothing is emitted. -/
def handleStatusChange (department : Department) (patientId : String)
    (status : PatientStatus) (subDeptId : Option String) (persistOk : Bool) :
    Department × List Toast :=
  let updated : Department :=
    if jsTruthy subDeptId && department.hasSubDepartments then
      let newSubs := ((department.subDepartments).getD []).map (fun s =>
        if s.id = subDeptId.getD "" then
          { s with patients := s.patients.map (fun p =>
            if p.id = patientId then { p with status := status } else p) }
        else s)
      { department with subDepartments := some newSubs }
    else
      let newPs := department.patients.map (fun p =>
        if p.id = patientId then { p with status := status } else p)
      { department with patients := newPs }
  match (allPatients department).find? (fun p => p.id = patientId) with
  | none => (updated, [])
  | some _ =>
    if persistOk then (updated, [])
    else (department, [Toast.error "Gagal mengubah status. Perubahan dibatalkan."])

/-- Handler `confirmDeletePatient` of `department-card.tsx`. -/
def confirmDeletePatient (department : Department) (deletingPatientId : Option String)
    (deletingSubDeptId : Option String) (persistOk : Bool) : Department × List Toast :=
  match deletingPatientId with
  | none => (department, [])
  | some pid =>
    let updated : Department :=
      if jsTruthy deletingSubDeptId && department.hasSubDepartments then
        let newSubs := ((department.subDepartments).getD []).map (fun s =>
          if s.id = deletingSubDeptId.getD "" then
            { s with patients := s.patients.filter (fun p => p.id ≠ pid) }
          else s)
        { department with subDepartments := some newSubs }
      else
        { department with patients := department.patients.filter (fun p => p.id ≠ pid) }
    if persistOk then (updated, [Toast.success "Requirement dihapus"])
    else (department, [Toast.error "Gagal menghapus. Perubahan dibatalkan."])

/-- Handler `handleAddSubDept` of `department-card.tsx`. The success toast
sits after the `try`/`catch` block in the source and therefore fires
unconditionally, also on the rollback path — the embedding reproduces this
faithfully. -/
def handleAddSubDept (department : Department) (newSubDeptName : String)
    (newId : String) (persistOk : Bool) : Department × List Toast :=
  if trimChars newSubDeptName.data = [] then (department, [])
  else
    let newSub : SubDepartment :=
      { id := newId, name := String.mk (trimChars newSubDeptName.data), patients := [] }
    let newSubs := ((department.subDepartments).getD []) ++ [newSub]
    let updated : Department := { department with subDepartments := some newSubs }
    if persistOk then
      (updated, [Toast.success ("Sub-departemen \"" ++ newSub.name ++ "\" ditambahkan")])
    else
      (department,
        [Toast.error "Gagal menambah sub-departemen. Perubahan dibatalkan.",
         Toast.success ("Sub-departemen \"" ++ newSub.name ++ "\" ditambahkan")])

/-- Modelled from the `@dnd-kit/sortable` library used by the source (an
external collaborator): `arrayMove(array, from, to)` removes the element at
`from` and re-inserts it at `to`. Out-of-range indices do not occur here —
`handleDragEnd` only calls it with indices obtained from `findIndex`. -/
def arrayMove {α : Type} (l : List α) (fromIdx toIdx : Nat) : List α :=
  match l[fromIdx]? with
  | none => l
  | some a => (l.eraseIdx fromIdx).insertIdx toIdx a

/-- Handler `handleDragEnd` of `PatientTable`: no-op when dropped on itself
or when an id cannot be found; otherwise the reordered list is handed to
`onReorder` (returned as `some`). -/
def handleDragEnd (patients : List Patient) (activeId overId : String) :
    Option (List Patient) :=
  if activeId = overId then none
  else
    match patients.findIdx? (fun p => p.id = activeId),
        patients.findIdx? (fun p => p.id = overId) with
    | some oldIndex, some newIndex => some (arrayMove patients oldIndex newIndex)
    | _, _ => none

/-- Handler `handleReorderPatients` of `department-card.tsx`. The whole new
ordering is persisted by `Promise.all` of one `upsertPatientSortOrder(p.id,
idx + 1)` call per item; the returned third component is that batch of
per-item position writes. `itemOk` tells which per-item writes resolve; the
`Promise.all` rejects as soon as any single one rejects, triggering the
rollback to the pre-drag `department` and the error toast. -/
def handleReorderPatients (department : Department) (newList : List Patient)
    (subDeptId : Option String) (itemOk : String → Bool) :
    Department × List Toast × List (String × Nat) :=
  let updated : Department :=
    if jsTruthy subDeptId && department.hasSubDepartments then
      let newSubs := ((department.subDepartments).getD []).map (fun s =>
        if s.id = subDeptId.getD "" then { s with patients := newList } else s)
      { department with subDepartments := some newSubs }
    else { department with patients := newList }
  let writes : List (String × Nat) :=
    newList.enum.map (fun pr => (pr.2.id, pr.1 + 1))
  if writes.all (fun w => itemOk w.1) then (updated, [], writes)
  else (department, [Toast.error "Gagal menyimpan urutan."], writes)

/-! ### Appointments handlers (AppointmentsTable, in weekly-planning.tsx) -/

/-- The eight form fields of the appointment modal. -/
structure ApptForm where
  tanggal : String
  jam : String
  kubikel : String
  rencanaPerawatan : String
  kasus : String
  departemen : String
  namaPasien : String
  nomorTelp : String
deriving DecidableEq, Repr

/-- Handler `handleSubmit` of `AppointmentsTable`: edit branch spreads the
form over the appointment being edited, add branch appends a new appointment
with `checklist: false`; both roll back to the snapshot with the same error
toast on reject. -/
def handleSubmitAppointment (appointments : List Appointment)
    (editingAppt : Option Appointment) (formData : ApptForm) (newId : String)
    (persistOk : Bool) : List Appointment × List Toast :=
  let snapshot := appointments
  match editingAppt with
  | some editing =>
    let updated : Appointment :=
      { editing with
        tanggal := formData.tanggal, jam := formData.jam, kubikel := formData.kubikel,
        rencanaPerawatan := formData.rencanaPerawatan, kasus := formData.kasus,
        departemen := formData.departemen, namaPasien := formData.namaPasien,
        nomorTelp := formData.nomorTelp }
    let next := appointments.map (fun a => if a.id = editing.id then updated else a)
    if persistOk then (next, [Toast.success "Appointment diperbarui"])
    else (snapshot, [Toast.error "Gagal menyimpan. Perubahan dibatalkan."])
  | none =>
    let newAppt : Appointment :=
      { id := newId,
        tanggal := formData.tanggal, jam := formData.jam, kubikel := formData.kubikel,
        rencanaPerawatan := formData.rencanaPerawatan, kasus := formData.kasus,
        departemen := formData.departemen, namaPasien := formData.namaPasien,
        nomorTelp := formData.nomorTelp, checklist := false }
    let next := appointments ++ [newAppt]
    if persistOk then (next, [Toast.success "Appointment ditambahkan"])
    else (snapshot, [Toast.error "Gagal menyimpan. Perubahan dibatalkan."])

/-- Handler `confirmDelete` of `AppointmentsTable`. -/
def confirmDeleteAppointment (appointments : List Appointment)
    (deletingId : Option String) (persistOk : Bool) :
    List Appointment × List Toast :=
  match deletingId with
  | none => (appointments, [])
  | some pid =>
    let snapshot := appointments
    let next := appointments.filter (fun a => a.id ≠ pid)
    if persistOk then (next, [Toast.success "Appointment dihapus"])
    else (snapshot, [Toast.error "Gagal menghapus. Perubahan dibatalkan."])

/-- Handler `toggleChecklist` of `AppointmentsTable`. As in
`handleStatusChange`, a missing id leaves the (unchanged) optimistic state
in place with no persistence call. -/
def toggleChecklist (appointments : List Appointment) (id : String)
    (persistOk : Bool) : List Appointment × List Toast :=
  let snapshot := appointments
  let updated := appointments.map (fun a =>
    if a.id = id then { a with checklist := !a.checklist } else a)
  match updated.find? (fun a => a.id = id) with
  | none => (updated, [])
  | some _ =>
    if persistOk then (updated, [])
    else (snapshot, [Toast.error "Gagal menyimpan status. Perubahan dibatalkan."])

/-! ### Weekly-planning handlers (src/components/weekly-planning.tsx) -/

/-- The five editable weekday columns of the planner. -/
inductive DayKey where
  | senin
  | selasa
  | rabu
  | kamis
  | jumat
deriving DecidableEq, Repr

/-- The computed property write `{ ...s, [day]: value }`. -/
def setDay (s : WeeklySlot) (day : DayKey) (value : String) : WeeklySlot :=
  match day with
  | DayKey.senin => { s with senin := value }
  | DayKey.selasa => { s with selasa := value }
  | DayKey.rabu => { s with rabu := value }
  | DayKey.kamis => { s with kamis := value }
  | DayKey.jumat => { s with jumat := value }

/-- Handler `updateSlot` of `weekly-planning.tsx`: snapshot, optimistic
apply, rollback + error toast when the slot id is unknown or the upsert
rejects; the boolean mirrors the handler's return value. -/
def updateSlot (slots : List WeeklySlot) (slotId : String) (day : DayKey)
    (value : String) (persistOk : Bool) : List WeeklySlot × List Toast × Bool :=
  let snapshot := slots
  let updated := slots.map (fun s => if s.id = slotId then setDay s day value else s)
  match updated.find? (fun s => s.id = slotId) with
  | none => (snapshot, [Toast.error "Slot tidak ditemukan. Perubahan dibatalkan."], false)
  | some _ =>
    if persistOk then (updated, [], true)
    else (snapshot, [Toast.error "Gagal menyimpan jadwal. Perubahan dibatalkan."], false)

/-- Handler `handleSave` of the slot modal, after it has computed
`valueToSave`: delegates to `updateSlot` and adds the success toast only
when that returned true. -/
def handleSaveSlot (slots : List WeeklySlot) (editSlotId : Option String)
    (editDay : DayKey) (valueToSave : String) (persistOk : Bool) :
    List WeeklySlot × List Toast :=
  match editSlotId with
  | none => (slots, [])
  | some sid =>
    let r := updateSlot slots sid editDay valueToSave persistOk
    if r.2.2 then (r.1, r.2.1 ++ [Toast.success "Jadwal berhasil disimpan"])
    else (r.1, r.2.1)

/-! ### Photo upload (src/components/photo-modal.tsx, supabase-queries.ts) -/

/-- The 5 MB limit, `MAX_FILE_SIZE_BYTES` in `photo-modal.tsx` and the
inline `5 * 1024 * 1024` check of `uploadPhotoBase64`. -/
def MAX_FILE_SIZE_BYTES : Nat := 5 * 1024 * 1024

/-- Outcome of `handleFileChange` for a chosen file: either the client-side
size guard rejects it (setting the size-error message, clearing the input
and returning before the `FileReader` ever runs, hence before `onAddPhoto`
and any network activity), or the read-and-upload path starts. -/
inductive FileDecision where
  | rejectedOversize
  | uploadStarted
deriving DecidableEq, Repr

/-- Handler `handleFileChange` of `photo-modal.tsx`, as a function of the
chosen file's byte size. -/
def handleFileChange (fileSize : Nat) : FileDecision :=
  if fileSize > MAX_FILE_SIZE_BYTES then FileDecision.rejectedOversize
  else FileDecision.uploadStarted

/-- A network call issued by `uploadPhotoBase64` against the persistence
service, in order. -/
inductive NetCall where
  | storageUpload (path : String)
  | insertPhotoRow (patientId : String) (storagePath : String)
deriving DecidableEq, Repr

/-- Environment of one `uploadPhotoBase64` run: which of its two service
calls reject, plus the impure inputs (`Date.now()`, the blob's extension
taken from its MIME type with `"jpg"` fallback, the public URL and the row
id the service would mint). -/
structure UploadEnv where
  uploadFails : Bool
  insertFails : Bool
  nowMs : Nat
  blobExt : Option String
  publicUrl : String
  rowId : String

/-- Function `uploadPhotoBase64` of `supabase-queries.ts`, returning the
network calls it issues (in order) and its result: a thrown error for an
oversized blob — raised before any service call — `none` when the storage
upload or the row insert fails, and the `Photo` on success. -/
def uploadPhotoBase64 (patientId : String) (blobSize : Nat) (env : UploadEnv) :
    List NetCall × Except String (Option Photo) :=
  if blobSize > 5 * 1024 * 1024 then
    ([], Except.error "Ukuran foto maksimum 5 MB")
  else
    let ext := match env.blobExt with
      | some e => if e = "" then "jpg" else e
      | none => "jpg"
    let path := patientId ++ "/" ++ toString env.nowMs ++ "." ++ ext
    if env.uploadFails then
      ([NetCall.storageUpload path], Except.ok none)
    else if env.insertFails then
      ([NetCall.storageUpload path, NetCall.insertPhotoRow patientId path], Except.ok none)
    else
      ([NetCall.storageUpload path, NetCall.insertPhotoRow patientId path],
        Except.ok (some { id := env.rowId, url := env.publicUrl, storagePath := path }))

/-! ### Persistence-service reads and writes (src/lib/supabase-queries.ts)

A query against the remote store answers with nullable data and an error
flag; the fetch functions are pure in those answers. -/

/-- Response of one remote query. -/
structure QueryResult (α : Type) where
  data : Option α
  error : Bool

/-- Row of the `departments` table (the columns `fetchDepartments` reads). -/
structure DeptRow where
  id : String
  name : String
  has_sub_departments : Bool
deriving DecidableEq, Repr

/-- Row of the `sub_departments` table. -/
structure SubRow where
  id : String
  department_id : String
  name : String
deriving DecidableEq, Repr

/-- Row of the `patients` table. Nullable text columns are `Option`. -/
structure PatRow where
  id : String
  department_id : String
  sub_department_id : Option String
  requirement : String
  status : PatientStatus
  has_pasien : Bool
  nama_pasien : Option String
  nomor_telp : Option String
  pasien_list : Option String
deriving DecidableEq, Repr

/-- Row of the `patient_photos` table. -/
structure PhotoRow where
  id : String
  patient_id : String
  photo_url : String
  storage_path : String
deriving DecidableEq, Repr

/-- The `photosByPatient` grouping of `fetchDepartments`: photos of one
patient, in row order. -/
def photosFor (photos : List PhotoRow) (pid : String) : List Photo :=
  (photos.filter (fun ph => ph.patient_id = pid)).map (fun ph =>
    { id := ph.id, url := ph.photo_url, storagePath := ph.storage_path })

/-- Decoding of one entry of a stored `pasien_list` JSON array. The TS code
casts without validation; a non-object element or a missing field is
`undefined` there and renders as empty, modelled as `""`. -/
def decodeEntry (j : Json) : PatientEntry :=
  match j with
  | Json.obj fs =>
    { id := jsonGetStr fs "id"
      namaPasien := jsonGetStr fs "namaPasien"
      nomorTelp := jsonGetStr fs "nomorTelp" }
  | _ => { id := "", namaPasien := "", nomorTelp := "" }

/-- Decoding of a parsed `pasien_list` value. A JSON value that is not an
array would be carried around untyped by the TS cast; no code path of the
application writes one, and it is normalised to `[]` here. -/
def decodeEntries (j : Json) : List PatientEntry :=
  match j with
  | Json.arr xs => xs.map decodeEntry
  | _ => []

/-- The `!p.sub_department_id` test: null or empty means "no
sub-department". -/
def isFalsySubId (o : Option String) : Bool :=
  decide (o.getD "" = "")

/-- The `toPatient` mapper inside `fetchDepartments`: `pasien_list` is
parsed from JSON when present and truthy (a parse exception yields `[]`),
an empty list is migrated from truthy legacy fields, and the legacy display
fields are derived from the first entry with the row's columns as fallback. -/
def toPatient (photos : List PhotoRow) (row : PatRow) : Patient :=
  let parsedList : List PatientEntry :=
    match row.pasien_list with
    | some s =>
      if s = "" then []
      else
        match jsonParseChars s.data with
        | some j => decodeEntries j
        | none => []
    | none => []
  let pasienList : List PatientEntry :=
    if parsedList.length = 0 && row.has_pasien && jsTruthy row.nama_pasien then
      [{ id := "pe-" ++ row.id, namaPasien := row.nama_pasien.getD "",
         nomorTelp := row.nomor_telp.getD "" }]
    else parsedList
  let first := pasienList.head?
  { id := row.id, requirement := row.requirement, status := row.status,
    pasienList := pasienList,
    hasPasien := pasienList.length > 0,
    namaPasien := (first.map PatientEntry.namaPasien).getD (row.nama_pasien.getD ""),
    nomorTelp := (first.map PatientEntry.nomorTelp).getD (row.nomor_telp.getD ""),
    photos := photosFor photos row.id }

/-- Function `fetchDepartments` of `supabase-queries.ts`, pure in the four
query responses. An error or missing data on the first query yields `[]`;
the three follow-up queries fall back to `[]` row lists. Note that the
direct patients (`!p.sub_department_id`) are attached to the department
whether or not `has_sub_departments` is set. -/
def fetchDepartments (deptsRes : QueryResult (List DeptRow))
    (subsRes : QueryResult (List SubRow)) (patientsRes : QueryResult (List PatRow))
    (photosRes : QueryResult (List PhotoRow)) : List Department :=
  match deptsRes.error, deptsRes.data with
  | true, _ => []
  | false, none => []
  | false, some depts =>
    let subs := subsRes.data.getD []
    let patients := patientsRes.data.getD []
    let photos := photosRes.data.getD []
    depts.map (fun d =>
      let deptSubs := subs.filter (fun s => s.department_id = d.id)
      let directPatients := patients.filter (fun p =>
        p.department_id = d.id && isFalsySubId p.sub_department_id)
      let builtSubs := deptSubs.map (fun s =>
        { id := s.id, name := s.name,
          patients := (patients.filter (fun p =>
            p.sub_department_id = some s.id)).map (toPatient photos) })
      { id := d.id, name := d.name,
        hasSubDepartments := d.has_sub_departments,
        patients := directPatients.map (toPatient photos),
        subDepartments := some builtSubs })

/-- Row of the `appointments` table. -/
structure ApptRow where
  id : String
  tanggal : String
  jam : String
  kubikel : String
  rencana_perawatan : String
  kasus : String
  departemen : String
  nama_pasien : String
  nomor_telp : String
  checklist : Bool
deriving DecidableEq, Repr

/-- Function `fetchAppointments` of `supabase-queries.ts`
(`jam.substring(0, 5)` keeps the first five characters). -/
def fetchAppointments (res : QueryResult (List ApptRow)) : List Appointment :=
  match res.error, res.data with
  | true, _ => []
  | false, none => []
  | false, some rows =>
    rows.map (fun row =>
      { id := row.id, tanggal := row.tanggal, jam := row.jam.take 5,
        kubikel := row.kubikel, rencanaPerawatan := row.rencana_perawatan,
        kasus := row.kasus, departemen := row.departemen,
        namaPasien := row.nama_pasien, nomorTelp := row.nomor_telp,
        checklist := row.checklist })

/-- Row of the `weekly_slots` table; the day columns are nullable. -/
structure SlotRow where
  id : String
  jam : String
  senin : Option String
  selasa : Option String
  rabu : Option String
  kamis : Option String
  jumat : Option String
  sabtu : Option String
  minggu : Option String
deriving DecidableEq, Repr

/-- Function `fetchWeeklySlots` of `supabase-queries.ts`
(`row.senin || ""` turns a null cell into the empty string). -/
def fetchWeeklySlots (res : QueryResult (List SlotRow)) : List WeeklySlot :=
  match res.error, res.data with
  | true, _ => []
  | false, none => []
  | false, some rows =>
    rows.map (fun row =>
      { id := row.id, jam := row.jam,
        senin := row.senin.getD "", selasa := row.selasa.getD "",
        rabu := row.rabu.getD "", kamis := row.kamis.getD "",
        jumat := row.jumat.getD "", sabtu := row.sabtu.getD "",
        minggu := row.minggu.getD "" })

/-- One serialized entry of `JSON.stringify(synced.pasienList)`. -/
def serializeEntryChars (e : PatientEntry) : List Char :=
  '\x7b' :: (quoteStr ['i', 'd'] ++ ':' :: quoteStr e.id.data ++
    ',' :: quoteStr "namaPasien".data ++ ':' :: quoteStr e.namaPasien.data ++
    ',' :: quoteStr "nomorTelp".data ++ ':' :: quoteStr e.nomorTelp.data ++ ['\x7d'])

/-- Serialization of the whole entry list as a JSON array. -/
def serializePasienListChars (entries : List PatientEntry) : List Char :=
  '[' :: (List.intercalate [','] (entries.map serializeEntryChars)) ++ [']']

/-- The row written by `upsertPatient` of `supabase-queries.ts`: every
persisted write of a patient goes through `syncLegacyFields` first
(`subDepartmentId || null` stores null for an absent or empty id). -/
structure PatientUpsertRow where
  id : String
  department_id : String
  sub_department_id : Option String
  requirement : String
  status : PatientStatus
  has_pasien : Bool
  nama_pasien : String
  nomor_telp : String
  pasien_list : String
deriving DecidableEq, Repr

/-- Function `upsertPatient`, as the row it sends to the service. -/
def upsertPatientRow (patient : Patient) (departmentId : String)
    (subDepartmentId : Option String) : PatientUpsertRow :=
  let synced := syncLegacyFields patient
  { id := synced.id, department_id := departmentId,
    sub_department_id := if jsTruthy subDepartmentId then subDepartmentId else none,
    requirement := synced.requirement, status := synced.status,
    has_pasien := synced.hasPasien, nama_pasien := synced.namaPasien,
    nomor_telp := synced.nomorTelp,
    pasien_list := String.mk (serializePasienListChars synced.pasienList) }

/-! ### Celebration effect (DepartmentCard, department-card.tsx)

The `useEffect` keeps the previously observed weighted progress in
`prevProgressRef` (initially `-1`) and opens the celebration modal exactly
when the current observation has at least one patient, progress exactly 100,
and the previous value is neither 100 nor the initial `-1`. Re-renders with
an unchanged `(totalPatients, weightedProgress)` pair do not re-run the
effect; stepping through them anyway is behaviour-preserving because such a
step never fires and leaves the stored value unchanged. -/

/-- The effect's condition at one observation. -/
def celebrationFire (prev : Int) (totalPatients : Nat) (weightedProgress : Nat) : Bool :=
  decide (0 < totalPatients) && decide (weightedProgress = 100) &&
    decide (prev ≠ 100) && decide (prev ≠ -1)

/-- Fold of the effect over a sequence of `(totalPatients, weightedProgress)`
observations, carrying `prevProgressRef`. -/
def celebrationsAux (prev : Int) : List (Nat × Nat) → List Bool
  | [] => []
  | (t, w) :: rest => celebrationFire prev t w :: celebrationsAux (w : Int) rest

/-- The pair the effect reads off one rendered department. -/
def deptObservation (d : Department) : Nat × Nat :=
  ((allPatients d).length, calcWeightedProgress (allPatients d))

/-- Celebration decisions over a sequence of renders of one department,
starting from the initial `prevProgressRef = -1`. -/
def celebrations (ds : List Department) : List Bool :=
  celebrationsAux (-1) (ds.map deptObservation)

/-! ### Interleaving semantics of the optimistic sync pattern

Every handler above instantiates one pattern: capture `snapshot`, apply the
mutation locally, and on rejection of the persistence call replace the then-
current state with `snapshot`. When several calls are in flight the rollback
of one can land after the apply or settle of another; the small trace
semantics below makes that explicit. An operation is an intended state
mutation plus the eventual outcome of its persistence call; a trace is any
interleaving of `start` (snapshot + optimistic apply) and `settle`
(resolution: nothing on success, rollback to the operation's own snapshot on
failure) events. -/

/-- One in-flight mutation: its optimistic apply and its persistence
outcome. -/
structure MutOp (σ : Type) where
  apply : σ → σ
  ok : Bool

/-- Trace events: operation `i` starts (captures its snapshot and applies),
or its persistence call settles. -/
inductive SyncEv where
  | start (i : Nat)
  | settle (i : Nat)
deriving DecidableEq, Repr

/-- Controller state: the current local state, the snapshots captured by
started operations, and how many rollbacks have fired. -/
structure SyncState (σ : Type) where
  cur : σ
  snaps : List (Nat × σ)
  rollbacks : Nat

/-- Snapshot recorded for operation `i`, if it has started. -/
def lookupSnap {σ : Type} (snaps : List (Nat × σ)) (i : Nat) : Option σ :=
  (snaps.find? (fun p => p.1 = i)).map Prod.snd

/-- One trace step. -/
def syncStep {σ : Type} (ops : List (MutOp σ)) (st : SyncState σ) (e : SyncEv) :
    SyncState σ :=
  match e with
  | SyncEv.start i =>
    match ops[i]? with
    | some op => { st with cur := op.apply st.cur, snaps := (i, st.cur) :: st.snaps }
    | none => st
  | SyncEv.settle i =>
    match ops[i]?, lookupSnap st.snaps i with
    | some op, some snap =>
      if op.ok then st
      else { cur := snap, snaps := st.snaps, rollbacks := st.rollbacks + 1 }
    | _, _ => st

/-- Run a trace from an initial local state. -/
def syncRun {σ : Type} (ops : List (MutOp σ)) (trace : List SyncEv) (s0 : σ) :
    SyncState σ :=
  trace.foldl (syncStep ops) { cur := s0, snaps := [], rollbacks := 0 }

/-! ## Claim theorems -/
/-- A department used as a concrete input in several statements. -/
def demoDeptC1 : Department :=
  { id := "d1", name := "Bedah", patients := [], hasSubDepartments := true,
    subDepartments := some [] }

/-- C1: for every mutation flow, a failing persistence call must leave the
state equal to the pre-mutation snapshot and emit exactly one failure
notification, with no success notification. `handleAddSubDept` violates the
notification half: its success toast sits after the `try`/`catch`, so on a
rejected `upsertSubDepartment` the handler rolls the state back (first
component below) but emits the failure toast AND the success toast. Every
sibling flow places the success toast inside the `try`; this placement is a
slip against the spec's uniform contract. -/
theorem addSubDept_failure_two_toasts_C1 :
    handleAddSubDept demoDeptC1 "Perio" "sub-1" false =
      (demoDeptC1,
        [Toast.error "Gagal menambah sub-departemen. Perubahan dibatalkan.",
         Toast.success "Sub-departemen \"Perio\" ditambahkan"]) := by
  decide

/-- C3: the weekly-slot codec round-trips every structured booking value,
and maps the break sentinel and the empty cell to themselves. -/
theorem slot_codec_roundtrip_C3 :
    (∀ x : WeeklySlotData, parseSlotValue (serializeSlotData x) = SlotValue.data x) ∧
    parseSlotValue "ISTIRAHAT" = SlotValue.istirahat ∧
    parseSlotValue "" = SlotValue.empty :=
  ⟨parseSlotValue_roundtrip, by decide, by decide⟩

/-- C8: a non-empty, non-blank day-cell value that is not the break sentinel
and fails JSON parsing is never an error: `parseSlotValue` always returns
the structured value obtained from the `" - "` split, and in particular
`"Jane - 2024-01-01"` parses to the record with name `"Jane"` and date
fragment `"2024-01-01"`. -/
theorem legacy_slot_fallback_C8 :
    (∀ val : String,
      ¬(val.data = [] ∨ trimChars val.data = []) →
      val.data ≠ "ISTIRAHAT".data →
      jsonParseChars val.data = none →
      parseSlotValue val = SlotValue.data
        { n := String.mk (jsOrElse ((splitDash val.data).getD 0 []) val.data)
          t := ""
          d := String.mk ((splitDash val.data).getD 1 [])
          pid := "" }) ∧
    parseSlotValue "Jane - 2024-01-01" =
      SlotValue.data { n := "Jane", t := "", d := "2024-01-01", pid := "" } := by
  constructor
  · intro val h1 h2 h3
    rw [parseSlotValue, parseSlotValueCore, if_neg h1, if_neg h2, h3]
  · decide

/-- Witness for C8 at the concrete legacy value. -/
theorem legacy_slot_fallback_C8_witness :
    parseSlotValue "Jane - 2024-01-01" = SlotValue.data
      { n := String.mk (jsOrElse ((splitDash "Jane - 2024-01-01".data).getD 0 [])
          "Jane - 2024-01-01".data)
        t := ""
        d := String.mk ((splitDash "Jane - 2024-01-01".data).getD 1 [])
        pid := "" } :=
  legacy_slot_fallback_C8.1 "Jane - 2024-01-01" (by decide) (by decide) rfl

/-- C4: the legacy display fields equal the first entry's fields (or are
empty for an empty entry list) and `hasPasien` is set exactly for a
non-empty list, (i) after `syncLegacyFields`, (ii) on the patient value the
entry-list save flow stores, and (iii) on every row `upsertPatient` writes
to the service. -/
theorem legacy_field_invariant_C4 :
    (∀ p : Patient,
      (syncLegacyFields p).namaPasien =
        (match p.pasienList with | [] => "" | e :: _ => e.namaPasien) ∧
      (syncLegacyFields p).nomorTelp =
        (match p.pasienList with | [] => "" | e :: _ => e.nomorTelp) ∧
      (syncLegacyFields p).hasPasien = !p.pasienList.isEmpty ∧
      (syncLegacyFields p).pasienList = p.pasienList) ∧
    (∀ (pat : Patient) (updatedList : List PatientEntry),
      (updatedPasienPatient pat updatedList).pasienList = updatedList ∧
      (updatedPasienPatient pat updatedList).namaPasien =
        (match updatedList with | [] => "" | e :: _ => e.namaPasien) ∧
      (updatedPasienPatient pat updatedList).nomorTelp =
        (match updatedList with | [] => "" | e :: _ => e.nomorTelp) ∧
      (updatedPasienPatient pat updatedList).hasPasien = !updatedList.isEmpty) ∧
    (∀ (p : Patient) (did : String) (sid : Option String),
      (upsertPatientRow p did sid).nama_pasien =
        (match p.pasienList with | [] => "" | e :: _ => e.namaPasien) ∧
      (upsertPatientRow p did sid).nomor_telp =
        (match p.pasienList with | [] => "" | e :: _ => e.nomorTelp) ∧
      (upsertPatientRow p did sid).has_pasien = !p.pasienList.isEmpty) := by
  refine ⟨fun p => ?_, fun pat l => ?_, fun p did sid => ?_⟩
  · cases hp : p.pasienList <;>
      simp [syncLegacyFields, hp]
  · cases l <;>
      simp [updatedPasienPatient, syncLegacyFields]
  · cases hp : p.pasienList <;>
      simp [upsertPatientRow, syncLegacyFields, hp]

/-- C7: an upload payload one byte over the 5 MB bound is rejected before
any service call (no storage upload, no row insert — `uploadPhotoBase64`
throws with an empty call list, and the photo modal's client guard rejects
without starting the read at all), while a payload of exactly 5 MB passes
the guard and reaches the storage upload. -/
theorem photo_size_guard_C7 :
    handleFileChange (5 * 1024 * 1024 + 1) = FileDecision.rejectedOversize ∧
    handleFileChange (5 * 1024 * 1024) = FileDecision.uploadStarted ∧
    (∀ (patientId : String) (blobSize : Nat) (env : UploadEnv),
      blobSize > 5 * 1024 * 1024 →
      uploadPhotoBase64 patientId blobSize env =
        ([], Except.error "Ukuran foto maksimum 5 MB")) ∧
    (∀ (patientId : String) (env : UploadEnv),
      (uploadPhotoBase64 patientId (5 * 1024 * 1024) env).1 ≠ []) := by
  refine ⟨by decide, by decide, fun pid size env h => ?_, fun pid env => ?_⟩
  · rw [uploadPhotoBase64, if_pos h]
  · rw [uploadPhotoBase64, if_neg (by omega)]
    split_ifs <;> simp

/-- Witness for C7 at a concrete oversized payload and environment. -/
theorem photo_size_guard_C7_witness :
    uploadPhotoBase64 "p1" (5 * 1024 * 1024 + 1)
        { uploadFails := false, insertFails := false, nowMs := 0,
          blobExt := none, publicUrl := "", rowId := "" } =
      ([], Except.error "Ukuran foto maksimum 5 MB") ∧
    (uploadPhotoBase64 "p1" (5 * 1024 * 1024)
        { uploadFails := false, insertFails := false, nowMs := 0,
          blobExt := none, publicUrl := "", rowId := "" }).1 ≠ [] :=
  ⟨photo_size_guard_C7.2.2.1 "p1" (5 * 1024 * 1024 + 1) _ (by omega),
   photo_size_guard_C7.2.2.2 "p1" _⟩

/-- C10: each list fetch is a total function of the service's answer and
returns the empty list on an error or on missing data, making a failed read
indistinguishable from an empty table. -/
theorem fetch_error_empty_C10 :
    (∀ (d : Option (List DeptRow)) (q2 : QueryResult (List SubRow))
        (q3 : QueryResult (List PatRow)) (q4 : QueryResult (List PhotoRow)),
      fetchDepartments { data := d, error := true } q2 q3 q4 = []) ∧
    (∀ (e : Bool) (q2 : QueryResult (List SubRow)) (q3 : QueryResult (List PatRow))
        (q4 : QueryResult (List PhotoRow)),
      fetchDepartments { data := none, error := e } q2 q3 q4 = []) ∧
    (∀ d : Option (List ApptRow), fetchAppointments { data := d, error := true } = []) ∧
    (∀ e : Bool, fetchAppointments { data := none, error := e } = []) ∧
    (∀ d : Option (List SlotRow), fetchWeeklySlots { data := d, error := true } = []) ∧
    (∀ e : Bool, fetchWeeklySlots { data := none, error := e } = []) ∧
    (∀ d : Option (List ApptRow),
      fetchAppointments { data := d, error := true } =
        fetchAppointments { data := some [], error := false }) := by
  refine ⟨fun d q2 q3 q4 => rfl, fun e q2 q3 q4 => ?_, fun d => rfl, fun e => ?_,
    fun d => rfl, fun e => ?_, fun d => rfl⟩ <;> cases e <;> rfl

/-- Concrete patient A for the reorder scenario. -/
def pA : Patient :=
  { id := "A", requirement := "Scaling", status := PatientStatus.belumDikerjakan,
    pasienList := [], hasPasien := false, namaPasien := "", nomorTelp := "", photos := [] }

/-- Concrete patient B for the reorder scenario. -/
def pB : Patient :=
  { id := "B", requirement := "Tambal", status := PatientStatus.tindakan,
    pasienList := [], hasPasien := false, namaPasien := "", nomorTelp := "", photos := [] }

/-- Concrete patient C for the reorder scenario. -/
def pC : Patient :=
  { id := "C", requirement := "Cabut", status := PatientStatus.selesai,
    pasienList := [], hasPasien := false, namaPasien := "", nomorTelp := "", photos := [] }

/-- A department holding the pre-drag order `[A, B, C]`. -/
def demoDeptABC : Department :=
  { id := "d2", name := "Orto", patients := [pA, pB, pC], hasSubDepartments := false,
    subDepartments := none }

/-- C6: dragging C before A over `[A, B, C]` yields `[C, A, B]`; the handler
persists the entire new ordering as per-item position writes
`[(C, 1), (A, 2), (B, 3)]`; if any one write fails the local state rolls
back to the pre-drag department with one failure toast, and if all succeed
the new order stands. -/
theorem reorder_C6 :
    handleDragEnd [pA, pB, pC] "C" "A" = some [pC, pA, pB] ∧
    (∀ (dept : Department) (itemOk : String → Bool),
      (handleReorderPatients dept [pC, pA, pB] none itemOk).2.2 =
        [("C", 1), ("A", 2), ("B", 3)]) ∧
    (∀ (dept : Department) (itemOk : String → Bool),
      itemOk "C" = false ∨ itemOk "A" = false ∨ itemOk "B" = false →
      (handleReorderPatients dept [pC, pA, pB] none itemOk).1 = dept ∧
      (handleReorderPatients dept [pC, pA, pB] none itemOk).2.1 =
        [Toast.error "Gagal menyimpan urutan."]) ∧
    (∀ (dept : Department) (itemOk : String → Bool),
      itemOk "C" = true ∧ itemOk "A" = true ∧ itemOk "B" = true →
      (handleReorderPatients dept [pC, pA, pB] none itemOk).1 =
        { dept with patients := [pC, pA, pB] }) := by
  refine ⟨by decide, fun dept itemOk => ?_, fun dept itemOk h => ?_, fun dept itemOk h => ?_⟩
  · by_cases hc : (([pC, pA, pB].enum.map (fun pr => (pr.2.id, pr.1 + 1))).all
        (fun w => itemOk w.1)) = true
    · simp only [handleReorderPatients, List.enum]
      split <;> rfl
    · simp only [handleReorderPatients, List.enum]
      split <;> rfl
  · have hall : (([pC, pA, pB].enum.map (fun pr => (pr.2.id, pr.1 + 1))).all
        (fun w => itemOk w.1)) = false := by
      rcases h with h | h | h <;> simp [pA, pB, pC, List.enum, h]
    constructor <;> simp [handleReorderPatients, hall]
  · have hall : (([pC, pA, pB].enum.map (fun pr => (pr.2.id, pr.1 + 1))).all
        (fun w => itemOk w.1)) = true := by
      obtain ⟨h1, h2, h3⟩ := h
      simp [pA, pB, pC, List.enum, h1, h2, h3]
    simp [handleReorderPatients, hall, jsTruthy]

/-- Witness for C6: with the write for patient A rejecting, the order
reverts to the pre-drag department; with all writes resolving it stays. -/
theorem reorder_C6_witness :
    ((handleReorderPatients demoDeptABC [pC, pA, pB] none
        (fun i => decide (i ≠ "A"))).1 = demoDeptABC ∧
      (handleReorderPatients demoDeptABC [pC, pA, pB] none
        (fun i => decide (i ≠ "A"))).2.1 = [Toast.error "Gagal menyimpan urutan."]) ∧
    (handleReorderPatients demoDeptABC [pC, pA, pB] none (fun _ => true)).1 =
      { demoDeptABC with patients := [pC, pA, pB] } :=
  ⟨reorder_C6.2.2.1 demoDeptABC _ (Or.inr (Or.inl (by decide))),
   reorder_C6.2.2.2 demoDeptABC _ ⟨rfl, rfl, rfl⟩⟩

/-- A weekly slot used in the interleaving scenario. -/
def slotW1 : WeeklySlot :=
  { id := "w1", jam := "08:00", senin := "", selasa := "", rabu := "", kamis := "",
    jumat := "", sabtu := "", minggu := "" }

/-- In-flight write of value `"A"` to Monday of slot `w1` whose persistence
call will reject (the optimistic apply of `updateSlot`). -/
def opFailA : MutOp (List WeeklySlot) :=
  { apply := fun slots => slots.map (fun s =>
      if s.id = "w1" then setDay s DayKey.senin "A" else s)
    ok := false }

/-- In-flight write of value `"B"` to the same cell whose persistence call
resolves. -/
def opOkB : MutOp (List WeeklySlot) :=
  { apply := fun slots => slots.map (fun s =>
      if s.id = "w1" then setDay s DayKey.senin "B" else s)
    ok := true }

/-- Counterexample for C2: two writes to the same slot are in flight; the
successful one settles first and its optimistic state is in place, but the
slow failing one then rolls back to its own pre-mutation snapshot, replacing
the successful write's state — so under this interleaving the state after
the successful call settles does not stay. -/
theorem success_reverted_C2_counterexample :
    (syncRun [opFailA, opOkB] [SyncEv.start 0, SyncEv.start 1, SyncEv.settle 1]
        [slotW1]).cur = opOkB.apply (opFailA.apply [slotW1]) ∧
    (syncRun [opFailA, opOkB]
        [SyncEv.start 0, SyncEv.start 1, SyncEv.settle 1, SyncEv.settle 0]
        [slotW1]).cur = [slotW1] ∧
    opOkB.apply (opFailA.apply [slotW1]) ≠ [slotW1] := by
  refine ⟨rfl, rfl, by decide⟩

/-- C2 (amended): on the success path no rollback ever fires — settling a
successful operation never changes the state, and a mutation whose window is
free of other in-flight operations ends in exactly its optimistically-applied
state with zero rollbacks; concretely, `updateSlot` and the add branch of
`handleSavePatientForm` return the optimistic state untouched when their
persistence call resolves. (A concurrently in-flight *failing* mutation may
later replace that state with its own snapshot — the documented race.) -/
theorem success_no_revert_C2 :
    (∀ (σ : Type) (ops : List (MutOp σ)) (st : SyncState σ) (i : Nat) (op : MutOp σ),
      ops[i]? = some op → op.ok = true → syncStep ops st (SyncEv.settle i) = st) ∧
    (∀ (σ : Type) (ops : List (MutOp σ)) (s0 : σ) (i : Nat) (op : MutOp σ),
      ops[i]? = some op → op.ok = true →
      (syncRun ops [SyncEv.start i, SyncEv.settle i] s0).cur = op.apply s0 ∧
      (syncRun ops [SyncEv.start i, SyncEv.settle i] s0).rollbacks = 0) ∧
    (∀ (slots : List WeeklySlot) (sid : String) (day : DayKey) (v : String),
      slots.any (fun s => s.id = sid) = true →
      updateSlot slots sid day v true =
        (slots.map (fun s => if s.id = sid then setDay s day v else s), [], true)) ∧
    (∀ (dept : Department) (newId req : String) (st : PatientStatus),
      handleSavePatientForm dept none FormMode.add none newId req st true =
        ({ dept with patients := dept.patients ++ [mkNewPatient newId req st] },
          [Toast.success "Requirement ditambahkan"])) := by
  have hstep : ∀ (σ : Type) (ops : List (MutOp σ)) (st : SyncState σ) (i : Nat)
      (op : MutOp σ), ops[i]? = some op → op.ok = true →
      syncStep ops st (SyncEv.settle i) = st := by
    intro σ ops st i op h hok
    unfold syncStep
    cases h2 : lookupSnap st.snaps i <;> simp [h, h2, hok]
  refine ⟨hstep, ?_, ?_, ?_⟩
  · intro σ ops s0 i op h hok
    constructor <;> simp [syncRun, syncStep, h, hok, lookupSnap]
  · intro slots sid day v hany
    have hid : ∀ s : WeeklySlot, (if s.id = sid then setDay s day v else s).id = s.id := by
      intro s
      by_cases hs : s.id = sid
      · rw [if_pos hs]; cases day <;> simp [setDay, hs]
      · rw [if_neg hs]
    have hfind : ((slots.map (fun s => if s.id = sid then setDay s day v else s)).find?
        (fun s => s.id = sid)).isSome = true := by
      refine List.find?_isSome.mpr ?_
      rw [List.any_eq_true] at hany
      obtain ⟨s, hs, hsid⟩ := hany
      refine ⟨_, List.mem_map_of_mem _ hs, ?_⟩
      rw [hid s]
      exact hsid
    obtain ⟨t, ht⟩ := Option.isSome_iff_exists.mp hfind
    simp only [updateSlot]
    rw [ht]
    simp
  · intro dept newId req st
    rfl

/-- Witness for C2 at concrete inputs. -/
theorem success_no_revert_C2_witness :
    syncStep [opOkB] { cur := [slotW1], snaps := [], rollbacks := 0 } (SyncEv.settle 0)
      = { cur := [slotW1], snaps := [], rollbacks := 0 } ∧
    ((syncRun [opOkB] [SyncEv.start 0, SyncEv.settle 0] [slotW1]).cur =
        opOkB.apply [slotW1] ∧
      (syncRun [opOkB] [SyncEv.start 0, SyncEv.settle 0] [slotW1]).rollbacks = 0) ∧
    updateSlot [slotW1] "w1" DayKey.senin "B" true =
      ([slotW1].map (fun s => if s.id = "w1" then setDay s DayKey.senin "B" else s),
        [], true) ∧
    handleSavePatientForm demoDeptC1 none FormMode.add none "p9" "Scaling"
        PatientStatus.tindakan true =
      ({ demoDeptC1 with
          patients := demoDeptC1.patients ++
            [mkNewPatient "p9" "Scaling" PatientStatus.tindakan] },
        [Toast.success "Requirement ditambahkan"]) :=
  ⟨success_no_revert_C2.1 (List WeeklySlot) [opOkB] _ 0 opOkB rfl rfl,
   success_no_revert_C2.2.1 (List WeeklySlot) [opOkB] [slotW1] 0 opOkB rfl rfl,
   success_no_revert_C2.2.2.1 [slotW1] "w1" DayKey.senin "B" (by decide),
   success_no_revert_C2.2.2.2 demoDeptC1 "p9" "Scaling" PatientStatus.tindakan⟩

/-- The default department used with `List.getD`. -/
def emptyDept : Department :=
  { id := "", name := "", patients := [], hasSubDepartments := false,
    subDepartments := none }

/-- Department row with sub-departments enabled, for the C9 scenario. -/
def d1row : DeptRow := { id := "d1", name := "Bedah", has_sub_departments := true }

/-- Sub-department row of `d1`. -/
def s1row : SubRow := { id := "s1", department_id := "d1", name := "Perio" }

/-- A patient row sitting directly on `d1` (no sub-department id). -/
def pDirectRow : PatRow :=
  { id := "p1", department_id := "d1", sub_department_id := none,
    requirement := "Scaling", status := PatientStatus.belumDikerjakan,
    has_pasien := false, nama_pasien := none, nomor_telp := none, pasien_list := none }

/-- A patient row inside sub-department `s1`. -/
def pSubRow : PatRow :=
  { id := "p2", department_id := "d1", sub_department_id := some "s1",
    requirement := "Tambal", status := PatientStatus.selesai,
    has_pasien := false, nama_pasien := none, nomor_telp := none, pasien_list := none }

/-- The departments loaded from a store that holds both a direct patient row
and a sub-department patient row for the flagged department `d1`. -/
def loadedC9 : List Department :=
  fetchDepartments { data := some [d1row], error := false }
    { data := some [s1row], error := false }
    { data := some [pDirectRow, pSubRow], error := false }
    { data := some [], error := false }

/-- Counterexample for C9: `fetchDepartments` attaches direct patient rows to
the department regardless of `hasSubDepartments`, so a store holding both a
direct row and a sub-department row for the same flagged department loads
into a state where the department's direct patient list and a sub-department
patient list are populated simultaneously. -/
theorem subdept_exclusivity_C9_counterexample :
    (loadedC9.getD 0 emptyDept).hasSubDepartments = true ∧
    (loadedC9.getD 0 emptyDept).patients ≠ [] ∧
    ((loadedC9.getD 0 emptyDept).subDepartments.getD []).flatMap
      SubDepartment.patients ≠ [] := by
  refine ⟨rfl, by decide, by decide⟩

/-- C9 (amended): loading preserves the exclusivity only under the
precondition that the store holds no direct patient row for a department
flagged `has_sub_departments`; under it, every loaded department with the
flag has an empty direct patient list. `fetchDepartments` itself does not
enforce the invariant (see the counterexample). -/
theorem subdept_exclusivity_C9 (dr : List DeptRow) (sr : List SubRow)
    (pr : List PatRow) (phr : List PhotoRow) (d : Department)
    (hclean : ∀ p ∈ pr, isFalsySubId p.sub_department_id = true →
      ∀ drow ∈ dr, drow.id = p.department_id → drow.has_sub_departments = false)
    (hd : d ∈ fetchDepartments { data := some dr, error := false }
      { data := some sr, error := false } { data := some pr, error := false }
      { data := some phr, error := false })
    (hsub : d.hasSubDepartments = true) :
    d.patients = [] := by
  simp only [fetchDepartments, List.mem_map] at hd
  obtain ⟨drow, hmem, hEq⟩ := hd
  have hflag : drow.has_sub_departments = true := by
    rw [← hEq] at hsub
    exact hsub
  have hpat : d.patients = ((pr.filter (fun p =>
      p.department_id = drow.id && isFalsySubId p.sub_department_id)).map
        (toPatient phr)) := by
    rw [← hEq]
    rfl
  rw [hpat]
  have hnil : pr.filter (fun p =>
      p.department_id = drow.id && isFalsySubId p.sub_department_id) = [] := by
    rw [List.filter_eq_nil_iff]
    intro p hp hcond
    rw [Bool.and_eq_true] at hcond
    obtain ⟨hdep, hfalsy⟩ := hcond
    have hdep' : drow.id = p.department_id := (of_decide_eq_true hdep).symm
    have := hclean p hp hfalsy drow hmem hdep'
    rw [this] at hflag
    exact Bool.false_ne_true hflag
  rw [hnil]
  rfl

/-- Witness for C9 at a store without direct rows for the flagged
department. -/
theorem subdept_exclusivity_C9_witness :
    ((fetchDepartments { data := some [d1row], error := false }
        { data := some [s1row], error := false }
        { data := some [pSubRow], error := false }
        { data := some [], error := false }).getD 0 emptyDept).patients = [] :=
  subdept_exclusivity_C9 [d1row] [s1row] [pSubRow] [] _
    (by decide) (by decide) (by decide)

/-- Index characterization of the celebration fold: entry `k` compares the
observation at `k` against the one at `k - 1` (against the initial `-1` for
`k = 0`). -/
theorem celebrationsAux_getD (l : List (Nat × Nat)) : ∀ (prev : Int) (k : Nat),
    k < l.length →
    (celebrationsAux prev l).getD k false =
      celebrationFire (if k = 0 then prev else ((l.getD (k - 1) (0, 0)).2 : Int))
        (l.getD k (0, 0)).1 (l.getD k (0, 0)).2 := by
  induction l with
  | nil => intro prev k hk; simp at hk
  | cons hd tl ih =>
    intro prev k hk
    obtain ⟨t, w⟩ := hd
    match k with
    | 0 => simp [celebrationsAux]
    | k + 1 =>
      have hk' : k < tl.length := by simpa using hk
      simp only [celebrationsAux, List.getD_cons_succ]
      rw [ih (w : Int) k hk']
      by_cases hk0 : k = 0
      · subst hk0
        simp
      · obtain ⟨j, rfl⟩ := Nat.exists_eq_succ_of_ne_zero hk0
        simp [List.getD_cons_succ]

/-- C5: over any sequence of renders of a department, the celebration fires
at step `k` exactly when `k` is not the initial observation, the department
has at least one patient, its weighted progress at `k` is exactly 100 and
the previously observed progress was not 100. In particular nothing fires at
the initial observation (even at 100%) and nothing fires with zero
patients. -/
theorem celebration_C5 (ds : List Department) (k : Nat) (hk : k < ds.length) :
    (celebrations ds).getD k false = true ↔
      (0 < k ∧ 0 < (allPatients (ds.getD k emptyDept)).length ∧
       calcWeightedProgress (allPatients (ds.getD k emptyDept)) = 100 ∧
       calcWeightedProgress (allPatients (ds.getD (k - 1) emptyDept)) ≠ 100) := by
  have hget : ∀ j, j < ds.length →
      (ds.map deptObservation).getD j (0, 0) = deptObservation (ds.getD j emptyDept) := by
    intro j hj
    rw [List.getD_eq_getElem?_getD, List.getElem?_map, List.getD_eq_getElem?_getD,
      List.getElem?_eq_getElem hj]
    rfl
  rw [celebrations, celebrationsAux_getD _ (-1) k (by simpa using hk), hget k hk]
  by_cases hk0 : k = 0
  · subst hk0
    simp [celebrationFire]
  · rw [if_neg hk0, hget (k - 1) (by omega)]
    unfold deptObservation celebrationFire
    simp only [Bool.and_eq_true, decide_eq_true_eq]
    constructor
    · rintro ⟨⟨⟨ht, hw⟩, hprev⟩, -⟩
      refine ⟨Nat.pos_of_ne_zero hk0, ht, hw, fun hc => hprev ?_⟩
      exact_mod_cast hc
    · rintro ⟨hpos, ht, hw, hprev⟩
      refine ⟨⟨⟨ht, hw⟩, fun hc => hprev ?_⟩, fun hc => ?_⟩
      · exact_mod_cast hc
      · omega

/-- One-patient department at an intermediate stage (progress 60). -/
def demoDeptMid : Department :=
  { id := "d3", name := "Perio", patients := [pB], hasSubDepartments := false,
    subDepartments := none }

/-- The same department after the patient reaches `Selesai` (progress 100). -/
def demoDeptDone : Department :=
  { id := "d3", name := "Perio", patients := [pC], hasSubDepartments := false,
    subDepartments := none }

/-- Witness for C5: the second observation crosses from 60 to 100 with one
patient present and fires. -/
theorem celebration_C5_witness :
    (celebrations [demoDeptMid, demoDeptDone]).getD 1 false = true :=
  (celebration_C5 [demoDeptMid, demoDeptDone] 1 (by decide)).mpr (by decide)
